import Mathlib

/-!
Verification of the mqns entanglement-forwarding core.

This file embeds, as Lean definitions, the parts of the mqns quantum-network
simulator that the checked properties are about:

* the forwarding information base (src/qns/network/proactive/fib.py),
* the link-architecture delay and success-probability models
  (src/qns/entity/qchannel/link_arch.py),
* the path-segment generator (src/examples/path_gen.py),
* the link layer (src/qns/network/protocol/link_layer.py), and
* the proactive forwarder (src/qns/network/protocol/proactive_routing.py).

Python dictionaries are embedded as functions into Option; Python exceptions
are embedded as Option/Except results (none / .error standing for an uncaught
exception).  Components of the repository that the handlers call but whose
source is not part of the studied tree (the quantum memory, the protocol-side
FIB with its get_entry interface, the Werner-state swapping routine, the event
records) are modelled from the specification; their doc comments say so.
-/

namespace Mqns

set_option maxHeartbeats 1000000

/-! ## Basic data model -/

/-- Timing modes of a node (spec section 4.4). -/
inductive TimingMode
  | async
  | lsync
  | sync
deriving DecidableEq, Repr

/-- Phase signals of the timing driver (spec section 4.4). -/
inductive SignalType
  | externalPhase
  | internalPhase
  | externalStart
deriving DecidableEq, Repr

/--
An EPR pair record (spec section 3, data model).  Nodes are identified by
their names; simulated time is a rational number of seconds.
-/
structure EPR where
  name : String
  src : String
  dst : String
  fidelity : ℚ
  decoherence_time : ℚ
  path_id : Option ℕ
  ch_index : Option ℤ
  orig_eprs : List String
  is_decoherenced : Bool
deriving DecidableEq, Repr

/-- Lifecycle states of a memory slot / qubit (spec section 3). -/
inductive QubitFSM
  | free
  | reserved
  | occupied
  | entangled
  | purif
  | eligible
  | swapping
  | released
  | consumed
deriving DecidableEq, Repr

/-- A memory-qubit handle: its address, lifecycle state and bound path. -/
structure MemoryQubit where
  addr : ℕ
  fsm : QubitFSM
  pid : Option ℕ
deriving DecidableEq, Repr

/-- One slot of a quantum memory: lifecycle state, bound path, reservation
key and the stored EPR (at most one). -/
structure Slot where
  state : QubitFSM
  pid : Option ℕ
  key : Option String
  epr : Option EPR
deriving DecidableEq, Repr

/--
Modelled from the spec: QuantumMemory (spec section 4.3); the implementation
file src/qns/entity/memory/memory.py is not part of the studied tree, only
its callers and tests are.  A memory is a fixed list of slots; a slot's
address is its position in the list.
-/
structure QuantumMemory where
  name : String
  slots : List Slot
deriving DecidableEq, Repr

namespace QuantumMemory

/-- The memory-qubit handle of the slot at an address. -/
def qubitAt (s : Slot) (a : ℕ) : MemoryQubit :=
  { addr := a, fsm := s.state, pid := s.pid }

/-- Number of FREE slots (the free property of spec section 4.3). -/
def freeCount (m : QuantumMemory) : ℕ :=
  (m.slots.filter (fun s => s.state = QubitFSM.free)).length

/-- Capacity of the memory. -/
def capacity (m : QuantumMemory) : ℕ := m.slots.length

/--
Modelled from the spec: write (spec section 4.3).  Selection rule: if an
address is given use that slot; else if a path id is given pick the matching
RESERVED slot; else any FREE slot.  Returns none (no qubit) when no
candidate slot exists, together with the (then unchanged) memory.
-/
def write (m : QuantumMemory) (epr : EPR) (pid : Option ℕ) (address : Option ℕ) :
    Option MemoryQubit × QuantumMemory :=
  match address with
  | some a =>
    match m.slots.get? a with
    | some s =>
      if s.epr = none ∧ (s.state = QubitFSM.free ∨ s.state = QubitFSM.reserved) then
        let s' : Slot := { s with state := QubitFSM.occupied, epr := some epr }
        (some (qubitAt s' a), { m with slots := m.slots.set a s' })
      else (none, m)
    | none => (none, m)
  | none =>
    match pid with
    | some p =>
      match m.slots.findIdx? (fun s => s.state = QubitFSM.reserved ∧ s.pid = some p) with
      | some a =>
        match m.slots.get? a with
        | some s =>
          let s' : Slot := { s with state := QubitFSM.occupied, epr := some epr }
          (some (qubitAt s' a), { m with slots := m.slots.set a s' })
        | none => (none, m)
      | none => (none, m)
    | none =>
      match m.slots.findIdx? (fun s => s.state = QubitFSM.free) with
      | some a =>
        match m.slots.get? a with
        | some s =>
          let s' : Slot := { s with state := QubitFSM.occupied, epr := some epr }
          (some (qubitAt s' a), { m with slots := m.slots.set a s' })
        | none => (none, m)
      | none => (none, m)

/--
Modelled from the spec: read by address (spec section 4.3).  Destructive
read: returns the slot's qubit handle and EPR and transitions the slot to
FREE (clearing the stored EPR).  Returns none when the slot holds no EPR.
-/
def readAddr (m : QuantumMemory) (a : ℕ) :
    Option (MemoryQubit × EPR) × QuantumMemory :=
  match m.slots.get? a with
  | some s =>
    match s.epr with
    | some e =>
      let s' : Slot := { s with state := QubitFSM.free, epr := none }
      (some (qubitAt s a, e), { m with slots := m.slots.set a s' })
    | none => (none, m)
  | none => (none, m)

/--
Modelled from the spec: get by key (spec section 4.3).  Non-destructive
lookup of the slot holding the EPR with the given name.
-/
def getKey (m : QuantumMemory) (k : String) : Option (MemoryQubit × EPR) :=
  match m.slots.findIdx? (fun s => (s.epr.map EPR.name) = some k) with
  | some a =>
    match m.slots.get? a with
    | some s =>
      match s.epr with
      | some e => some (qubitAt s a, e)
      | none => none
    | none => none
  | none => none

/--
Modelled from the spec: get by address (spec section 4.3).  Non-destructive
lookup of the slot at an address.
-/
def getAddr (m : QuantumMemory) (a : ℕ) : Option (MemoryQubit × EPR) :=
  match m.slots.get? a with
  | some s =>
    match s.epr with
    | some e => some (qubitAt s a, e)
    | none => none
  | none => none

/--
Modelled from the spec: update (spec section 4.3).  Rewrites the EPR stored
in the slot currently holding the EPR named oldName with newE (identity and
fidelity both replaced).  Returns false and the unchanged memory when no
slot holds that EPR.
-/
def update (m : QuantumMemory) (oldName : String) (newE : EPR) :
    Bool × QuantumMemory :=
  match m.slots.findIdx? (fun s => (s.epr.map EPR.name) = some oldName) with
  | some a =>
    match m.slots.get? a with
    | some s =>
      let s' : Slot := { s with epr := some newE }
      (true, { m with slots := m.slots.set a s' })
    | none => (false, m)
  | none => (false, m)

/--
Modelled from the spec: search_eligible_qubits (spec section 4.3).  Lists
the slots in ELIGIBLE state bound to the given path id, with their EPRs.
-/
def searchEligibleQubits (m : QuantumMemory) (pid : Option ℕ) :
    List (MemoryQubit × EPR) :=
  (List.range m.slots.length).filterMap (fun a =>
    match m.slots.get? a with
    | some s =>
      if s.state = QubitFSM.eligible ∧ s.pid = pid then
        match s.epr with
        | some e => some (qubitAt s a, e)
        | none => none
      else none
    | none => none)

/--
Modelled from the spec: allocate (spec section 4.3).  Reserves a FREE slot
for a path and returns its address, or -1 when no slot is free (the tests
of src/test/entity/test_memory.py compare the result against -1).
-/
def allocate (m : QuantumMemory) (pid : ℕ) : ℤ × QuantumMemory :=
  match m.slots.findIdx? (fun s => s.state = QubitFSM.free) with
  | some a =>
    match m.slots.get? a with
    | some s =>
      let s' : Slot := { s with state := QubitFSM.reserved, pid := some pid }
      ((a : ℤ), { m with slots := m.slots.set a s' })
    | none => (-1, m)
  | none => (-1, m)

end QuantumMemory

/-! ## Forwarding information base (src/qns/network/proactive/fib.py) -/

/--
A FIB entry (FIBEntry of src/qns/network/proactive/fib.py): path id, request
id, route vector of node names, swap-rank sequence and purification scheme.
-/
structure FIBEntry where
  path_id : ℕ
  request_id : ℕ
  path_vector : List String
  swap_sequence : List ℤ
  purification_scheme : List (String × ℕ)
deriving DecidableEq, Repr

/-- A Python error, distinguished by kind (IndexError versus KeyError). -/
inductive PyErr
  | indexError (msg : String)
  | keyError (msg : String)
deriving DecidableEq, Repr

/-- Dictionary access d[k]: the value, or an uncaught KeyError. -/
def dictAccess {α : Type} (d : ℕ → Option α) (k : ℕ) : Except PyErr α :=
  match d k with
  | some v => Except.ok v
  | none => Except.error (PyErr.keyError (toString k))

/-- Pointwise dictionary update (d[k] = v, or del d[k] for v = none). -/
def upd {α : Type} (d : ℕ → Option α) (k : ℕ) (v : Option α) : ℕ → Option α :=
  fun x => if x = k then v else d x

/--
ForwardingInformationBase of src/qns/network/proactive/fib.py: the table maps
a path id to its FIB entry, and req_path_map is the secondary index mapping a
request id to the set of its path ids.  Python dictionaries are embedded as
functions into Option.
-/
structure ForwardingInformationBase where
  table : ℕ → Option FIBEntry
  req_path_map : ℕ → Option (Finset ℕ)

namespace ForwardingInformationBase

/--
ForwardingInformationBase.get: retrieve an entry by path_id; the KeyError of
the table lookup is caught and re-raised as an IndexError.  The pair returns
the outcome together with the state the method leaves behind (the method
does not mutate the FIB).
-/
def get (f : ForwardingInformationBase) (path_id : ℕ) :
    Except PyErr FIBEntry × ForwardingInformationBase :=
  match dictAccess f.table path_id with
  | Except.ok e => (Except.ok e, f)
  | Except.error (PyErr.keyError _) =>
    (Except.error (PyErr.indexError
      ("FIB entry not found for path_id=" ++ toString path_id)), f)
  | Except.error e => (Except.error e, f)

/--
ForwardingInformationBase.erase: remove an entry from the table; a
nonexistent entry is silently ignored (the KeyError of table.pop is caught
and the method returns).  After popping the entry, the code reads
req_path_map[request_id] and calls set.remove, both of which raise an
uncaught KeyError on an inconsistent state; those raises are the none
result.
-/
def erase (f : ForwardingInformationBase) (path_id : ℕ) :
    Option ForwardingInformationBase :=
  match f.table path_id with
  | none => some f
  | some entry => do
    let table' := upd f.table path_id none
    let paths ← f.req_path_map entry.request_id
    if path_id ∈ paths then
      let paths' := paths.erase path_id
      if paths' = ∅ then
        return ⟨table', upd f.req_path_map entry.request_id none⟩
      else
        return ⟨table', upd f.req_path_map entry.request_id (some paths')⟩
    else none

/--
ForwardingInformationBase.insert_or_replace: erase any entry with the same
path_id, store the new entry in the table, and add the path id under the
entry's request id in the secondary index (setdefault with an empty set).
-/
def insert_or_replace (f : ForwardingInformationBase) (entry : FIBEntry) :
    Option ForwardingInformationBase := do
  let f1 ← f.erase entry.path_id
  let table' := upd f1.table entry.path_id (some entry)
  let paths := (f1.req_path_map entry.request_id).getD ∅
  return ⟨table', upd f1.req_path_map entry.request_id (some (insert entry.path_id paths))⟩

/--
The consistency invariant tying the two indices together: every table entry
is listed under its request id, and every listed path id has a table entry
with that request id (spec section 3: Inserting a path_id that exists
replaces atomically; erasing cleans both indices).
-/
def Consistent (f : ForwardingInformationBase) : Prop :=
  (∀ pid e, f.table pid = some e →
    ∃ ps, f.req_path_map e.request_id = some ps ∧ pid ∈ ps) ∧
  (∀ rid ps pid, f.req_path_map rid = some ps → pid ∈ ps →
    ∃ e, f.table pid = some e ∧ e.request_id = rid)

end ForwardingInformationBase

/-! ## Link architectures (src/qns/entity/qchannel/link_arch.py)

Each architecture exposes success_prob(length, alpha, eta_s, eta_d) and
delays(k, reset_time, tau_l, tau_0) returning the triple (EPR creation time,
notification time to the primary node, notification time to the secondary
node).  The Python floating-point arithmetic is embedded over the reals.
-/

namespace LinkArchDimBk

/-- LinkArchDimBk.success_prob. -/
noncomputable def success_prob (length alpha eta_s eta_d : ℝ) : ℝ :=
  let p_bsa : ℝ := 0.5
  let p_l_sb : ℝ := (10 : ℝ) ^ (-alpha * length / 2 / 10)
  let eta_sb : ℝ := eta_s * eta_d * p_l_sb
  p_bsa * eta_sb ^ (2 : ℕ)

/-- LinkArchDimBk.delays. -/
noncomputable def delays (k : ℕ) (reset_time tau_l tau_0 : ℝ) : ℝ × ℝ × ℝ :=
  let attempt_duration := max (2 * (tau_l + tau_0)) reset_time
  ((k : ℝ) * attempt_duration - 2 * tau_l - tau_0, 2 * tau_l + tau_0, 2 * tau_l + tau_0)

end LinkArchDimBk

namespace LinkArchDimBkSeq

/-- LinkArchDimBkSeq.success_prob, inherited from LinkArchDimBk. -/
noncomputable def success_prob (length alpha eta_s eta_d : ℝ) : ℝ :=
  LinkArchDimBk.success_prob length alpha eta_s eta_d

/-- LinkArchDimBkSeq.delays. -/
noncomputable def delays (k : ℕ) (reset_time tau_l tau_0 : ℝ) : ℝ × ℝ × ℝ :=
  let attempt_duration := max (5 * (tau_l + tau_0)) reset_time
  (((k : ℝ) - 1) * attempt_duration + tau_l + 4 * tau_0,
   4 * tau_l + tau_0,
   4 * tau_l + tau_0)

end LinkArchDimBkSeq

namespace LinkArchSr

/-- LinkArchSr.success_prob. -/
noncomputable def success_prob (length alpha eta_s eta_d : ℝ) : ℝ :=
  let p_l_sr : ℝ := (10 : ℝ) ^ (-alpha * length / 10)
  let eta_sr : ℝ := eta_s * eta_d * p_l_sr
  eta_sr

/-- LinkArchSr.delays. -/
noncomputable def delays (k : ℕ) (reset_time tau_l tau_0 : ℝ) : ℝ × ℝ × ℝ :=
  let attempt_duration := max (2 * (tau_l + tau_0)) reset_time
  ((k : ℝ) * attempt_duration - 2 * tau_l, tau_l, 2 * tau_l)

end LinkArchSr

namespace LinkArchSim

/-- LinkArchSim.success_prob (the eta_s argument is discarded). -/
noncomputable def success_prob (length alpha eta_s eta_d : ℝ) : ℝ :=
  let _ := eta_s
  let p_l_sb : ℝ := (10 : ℝ) ^ (-alpha * length / 2 / 10)
  let eta_rr : ℝ := (eta_d * p_l_sb) ^ (2 : ℕ)
  eta_rr

/-- LinkArchSim.delays. -/
noncomputable def delays (k : ℕ) (reset_time tau_l tau_0 : ℝ) : ℝ × ℝ × ℝ :=
  let attempt_duration := max (tau_l + tau_0) reset_time
  ((k : ℝ) * attempt_duration - tau_l, tau_l, tau_l)

end LinkArchSim

/-! ## Path-segment generation (src/examples/path_gen.py) -/

/--
compute_distances_distribution of src/examples/path_gen.py, restricted to
the branches reachable for the "uniform" proportion: with no routers the
whole distance is a single segment; otherwise the end-to-end distance is
divided (integer floor division) evenly over number_of_routers + 1 segments.
The remaining proportions use floating-point weights and are outside the
checked claims; they are not embedded.
-/
def compute_distances_distribution_uniform
    (end_to_end_distance number_of_routers : ℕ) : List ℕ :=
  let total_segments := number_of_routers + 1
  if number_of_routers = 0 then [end_to_end_distance]
  else List.replicate total_segments (end_to_end_distance / total_segments)

/-! ## Link layer (src/qns/network/protocol/link_layer.py) -/

/-- A heralding message on a classical channel: epr_succeeded / epr_failed,
with the path id and the EPR name. -/
structure LLClassicMsg where
  cmd : String
  path_id : Option ℕ
  epr_id : String
deriving DecidableEq, Repr

/-- The observable actions of a link-layer handler: a half-EPR sent on the
quantum channel, a heralding message sent on the classical channel, or a
QubitEntangledEvent scheduled for the network layer with a notify delay. -/
inductive LLOutput
  | qubitSent (epr : EPR) (nextHop : String)
  | classicSent (msg : LLClassicMsg) (dest : String)
  | entangledNotify (neighbor : String) (qubit : MemoryQubit) (delay : ℚ)
deriving DecidableEq, Repr

/-- The link-layer state read by the embedded handlers: node name, timing
mode, current SYNC phase, names of the active channels, and the configured
initial fidelity. -/
structure LLState where
  ownName : String
  timingMode : TimingMode
  syncPhase : SignalType
  activeChannels : List String
  init_fidelity : ℚ
deriving DecidableEq, Repr

namespace LinkLayer

/-- LinkLayer.generate_epr: a fresh Werner pair between this node and the
destination, at the configured initial fidelity.  The uuid name, creation
time and decoherence deadline are supplied by the caller of the embedding. -/
def generate_epr (st : LLState) (dst : String) (freshName : String)
    (decoherence_time : ℚ) : EPR :=
  { name := freshName, src := st.ownName, dst := dst,
    fidelity := st.init_fidelity, decoherence_time := decoherence_time,
    path_id := none, ch_index := none, orig_eprs := [], is_decoherenced := false }

/--
LinkLayer.generate_entanglement: one EPR-generation attempt on a quantum
channel.  After the SYNC-phase and active-channel guards, a fresh half-EPR
is written into the sender-side memory (at the given address when retrying);
if the write returns no qubit (memory full) the attempt is dropped with no
output; otherwise the half-EPR is flagged with the qubit's path id and sent
on the quantum channel.  The result is the updated memory and the emitted
outputs.
-/
def generate_entanglement (st : LLState) (qchannelName nextHop : String)
    (qmemory : QuantumMemory) (address : Option ℕ)
    (freshName : String) (decoherence_time : ℚ) :
    QuantumMemory × List LLOutput :=
  if st.timingMode = TimingMode.sync ∧ st.syncPhase ≠ SignalType.externalPhase then
    (qmemory, [])
  else if qchannelName ∉ st.activeChannels then
    (qmemory, [])
  else
    let epr := generate_epr st nextHop freshName decoherence_time
    match qmemory.write epr none address with
    | (none, qmem') => (qmem', [])
    | (some local_qubit, qmem') =>
      let epr' := { epr with path_id := local_qubit.pid }
      (qmem', [LLOutput.qubitSent epr' nextHop])

/--
LinkLayer.handle_distribution: a half-EPR arriving from a neighbor.  After
the SYNC-phase guard: a decohered pair (lost photon) is answered with
epr_failed; otherwise the pair is stored in the memory of the channel (by
path id); when the write returns no qubit (memory full) an epr_failed
message goes back to the sender, and on success an epr_succeeded message is
sent and a QubitEntangledEvent is scheduled after the classical-channel
delay (notify_entangled_qubit, which first moves the qubit to ENTANGLED).
-/
def handle_distribution (st : LLState) (fromNode : String) (epr : EPR)
    (qmemory : QuantumMemory) (cchannelDelay : ℚ) :
    QuantumMemory × List LLOutput :=
  if st.timingMode = TimingMode.sync ∧ st.syncPhase ≠ SignalType.externalPhase then
    (qmemory, [])
  else if epr.is_decoherenced then
    (qmemory, [LLOutput.classicSent
      { cmd := "epr_failed", path_id := epr.path_id, epr_id := epr.name } fromNode])
  else
    match qmemory.write epr epr.path_id none with
    | (none, qmem') =>
      (qmem', [LLOutput.classicSent
        { cmd := "epr_failed", path_id := epr.path_id, epr_id := epr.name } fromNode])
    | (some local_qubit, qmem') =>
      (qmem',
       [LLOutput.classicSent
          { cmd := "epr_succeeded", path_id := epr.path_id, epr_id := epr.name } fromNode,
        LLOutput.entangledNotify fromNode
          { local_qubit with fsm := QubitFSM.entangled } cchannelDelay])

end LinkLayer

/-! ## Proactive forwarder (src/qns/network/protocol/proactive_routing.py)

Python exceptions are embedded as the none result of an Option-valued
handler; the stochastic Werner-state swapping routine (qns/models/epr.py is
not part of the studied tree) is an oracle parameter swapFn giving the
outcome of each swap (none = swap failed).
-/

/-- A SWAP_UPDATE message (spec section 6). -/
structure SwapUpdateMsg where
  path_id : ℕ
  swapping_node : String
  partner : String
  epr : String
  new_epr : Option EPR
  destination : String
  fwd : Bool
deriving DecidableEq, Repr

/-- Observable actions of a forwarder handler: a QubitReleasedEvent
scheduled for a qubit of a memory (Modelled from the spec: the event record
of qns/network/protocol/event.py carries the qubit, the time and an e2e flag
that defaults to false), or a SWAP_UPDATE sent towards a destination via a
next hop (with or without an extra channel delay). -/
inductive PFOutput
  | qubitReleased (memName : String) (qubit : MemoryQubit) (t : ℚ) (e2e : Bool)
  | swapUpdateSent (dest : String) (nextHop : String) (msg : SwapUpdateMsg) (delay : Bool)
deriving DecidableEq, Repr

/-- Parallel-swap reconciliation records, keyed by EPR name
(spec section 3: epr_name pointing to (shared_epr, other_epr, my_new_epr)). -/
abbrev PSMap := List (String × (EPR × EPR × EPR))

/-- Dictionary lookup in a parallel-swappings map. -/
def psLookup : PSMap → String → Option (EPR × EPR × EPR)
  | [], _ => none
  | (k', v) :: rest, k => if k' = k then some v else psLookup rest k

/-- Dictionary pop with default (dict.pop(k, None)): drop the record. -/
def psPop (l : PSMap) (k : String) : PSMap :=
  l.filter (fun p => p.1 ≠ k)

/-- Dictionary store (d[k] = v): replace in place or append. -/
def psInsert (l : PSMap) (k : String) (v : EPR × EPR × EPR) : PSMap :=
  if (psLookup l k).isSome then
    l.map (fun p => if p.1 = k then (k, v) else p)
  else l ++ [(k, v)]

/-- The forwarder state read and written by the embedded handlers.  The fib
field is the protocol-side FIB's get_entry interface (Modelled from the
spec: qns/network/protocol/fib.py is not part of the studied tree; get_entry
returns the entry installed for a path id, if any). -/
structure PFState where
  ownName : String
  timingMode : TimingMode
  syncPhase : SignalType
  memories : List QuantumMemory
  parallelSwappings : PSMap
  e2eCount : ℕ
  fib : ℕ → Option FIBEntry

/-- Python list.index: the first index of an element, or a raised ValueError
(none) when the element is absent. -/
def pyIndex (l : List String) (x : String) : Option ℕ :=
  if x ∈ l then some (l.indexOf x) else none

/-- Set the lifecycle state of the slot at an address of the mi-th memory
(the fsm.to_* transitions mutate the slot the qubit handle points to). -/
def setStateAt (mems : List QuantumMemory) (mi : ℕ) (addr : ℕ)
    (s : QubitFSM) : List QuantumMemory :=
  match mems.get? mi with
  | some m =>
    match m.slots.get? addr with
    | some sl => mems.set mi { m with slots := m.slots.set addr { sl with state := s } }
    | none => mems
  | none => mems

/-- The release condition on a received new_epr: the message carries no new
EPR, or the carried EPR is already past its decoherence deadline. -/
def newEprGone : Option EPR → ℚ → Bool
  | none, _ => true
  | some e, tc => decide (e.decoherence_time ≤ tc)

/-- ProactiveRouting.eval_swapping_conditions: the qubit is eligible when
the partner's swap rank is greater than or equal to the node's own rank. -/
def eval_swapping_conditions (ownName : String) (fe : FIBEntry)
    (partner : String) : Option Bool := do
  let route := fe.path_vector
  let swap_sequence := fe.swap_sequence
  let partner_idx ← pyIndex route partner
  let partner_rank ← swap_sequence.get? partner_idx
  let own_idx ← pyIndex route ownName
  let own_rank ← swap_sequence.get? own_idx
  return partner_rank ≥ own_rank

/-- ProactiveRouting.send_swap_update: pick the next hop along the route
towards the destination (Python route[own_idx-1] with own_idx = 0 wraps to
the last element) and send the message on the classical channel, with the
channel delay when delay is set. -/
def send_swap_update (ownName : String) (dest : String) (msg : SwapUpdateMsg)
    (route : List String) (delay : Bool) : Option PFOutput := do
  let own_idx ← pyIndex route ownName
  let dest_idx ← pyIndex route dest
  let nh ←
    if dest_idx > own_idx then route.get? (own_idx + 1)
    else if own_idx = 0 then route.get? (route.length - 1)
    else route.get? (own_idx - 1)
  return PFOutput.swapUpdateSent dest nh msg delay

/-- ProactiveRouting.check_eligible_qubit: scan the other memories of the
node (skipping the one named like qmem) for ELIGIBLE qubits of the path;
return the first memory (by index) with a non-empty list. -/
def check_eligible_qubit : List QuantumMemory → String → Option ℕ → ℕ →
    Option (ℕ × List (MemoryQubit × EPR))
  | [], _, _, _ => none
  | qm :: rest, qmemName, pid, i =>
    if qm.name ≠ qmemName then
      let qubits := qm.searchEligibleQubits pid
      if qubits ≠ [] then some (i, qubits)
      else check_eligible_qubit rest qmemName pid (i + 1)
    else check_eligible_qubit rest qmemName pid (i + 1)

/-- ProactiveRouting.get_memory_qubit: find the memory (by index) holding
the EPR with the given name, together with its qubit handle. -/
def get_memory_qubit : List QuantumMemory → String → ℕ →
    Option (ℕ × MemoryQubit)
  | [], _, _ => none
  | qm :: rest, eprName, i =>
    match qm.getKey eprName with
    | some (q, _) => some (i, q)
    | none => get_memory_qubit rest eprName (i + 1)

/-- The (prev, next) ordering of the two swapped EPRs at an intermediate
node, matching epr.src/dst against the node itself. -/
structure SwapOrdering where
  prev_partner : String
  prev_epr : EPR
  next_partner : String
  next_epr : EPR
  prev_qubit : MemoryQubit
  next_qubit : MemoryQubit
  prev_memName : String
  next_memName : String
  thisIsPrev : Bool
deriving DecidableEq, Repr

/--
The intermediate-node branch of ProactiveRouting.eligible: look for another
ELIGIBLE qubit of the path in the other memories; order the two EPRs into
(prev, next); stamp elementary pairs with their channel index; perform the
swap (oracle swapFn; none = failure); on success rewrite the new pair's
endpoints and record parallel-swap bookkeeping for same-rank partners; send
a SWAP_UPDATE to each partner; destructively read both slots and emit the
two QubitReleasedEvents (the second delayed by one microsecond).
-/
def eligible_intermediate (swapFn : EPR → EPR → Option EPR) (st : PFState)
    (tc : ℚ) (mi : ℕ) (qubit : MemoryQubit) (fe : FIBEntry) (own_idx : ℕ) :
    Option (PFState × List PFOutput) := do
  let swap_sequence := fe.swap_sequence
  let route := fe.path_vector
  let qmem ← st.memories.get? mi
  match check_eligible_qubit st.memories qmem.name (some fe.path_id) 0 with
  | none => return (st, [])
  | some (omi, qubits) => do
    let (other_qubit, other_epr0) ← qubits.head?
    let other_qmem ← st.memories.get? omi
    let te ← qmem.getAddr qubit.addr
    let this_epr0 := te.2
    let od ←
      if this_epr0.dst = st.ownName then
        some { prev_partner := this_epr0.src, prev_epr := this_epr0,
               next_partner := other_epr0.dst, next_epr := other_epr0,
               prev_qubit := qubit, next_qubit := other_qubit,
               prev_memName := qmem.name, next_memName := other_qmem.name,
               thisIsPrev := true : SwapOrdering }
      else if this_epr0.src = st.ownName then
        some { prev_partner := other_epr0.src, prev_epr := other_epr0,
               next_partner := this_epr0.dst, next_epr := this_epr0,
               prev_qubit := other_qubit, next_qubit := qubit,
               prev_memName := other_qmem.name, next_memName := qmem.name,
               thisIsPrev := false : SwapOrdering }
      else none
    let prev_epr := if od.prev_epr.orig_eprs = []
      then { od.prev_epr with ch_index := some ((own_idx : ℤ) - 1) } else od.prev_epr
    let next_epr := if od.next_epr.orig_eprs = []
      then { od.next_epr with ch_index := some (own_idx : ℤ) } else od.next_epr
    let this_epr := if od.thisIsPrev then prev_epr else next_epr
    let other_epr := if od.thisIsPrev then next_epr else prev_epr
    let new_epr0 := swapFn this_epr other_epr
    let psAndNew ←
      match new_epr0 with
      | some ne0 => do
        let ne := { ne0 with src := od.prev_partner, dst := od.next_partner }
        let own_rank ← swap_sequence.get? own_idx
        let prev_p_idx ← pyIndex route od.prev_partner
        let prev_p_rank ← swap_sequence.get? prev_p_idx
        let ps1 := if own_rank = prev_p_rank then
          psInsert st.parallelSwappings prev_epr.name (prev_epr, next_epr, ne)
          else st.parallelSwappings
        let next_p_idx ← pyIndex route od.next_partner
        let next_p_rank ← swap_sequence.get? next_p_idx
        let ps2 := if own_rank = next_p_rank then
          psInsert ps1 next_epr.name (next_epr, prev_epr, ne) else ps1
        some (ps2, some ne)
      | none => some (st.parallelSwappings, (none : Option EPR))
    let prevMsg : SwapUpdateMsg :=
      { path_id := fe.path_id, swapping_node := st.ownName,
        partner := od.next_partner, epr := prev_epr.name,
        new_epr := psAndNew.2, destination := od.prev_partner, fwd := false }
    let out1 ← send_swap_update st.ownName od.prev_partner prevMsg route false
    let nextMsg : SwapUpdateMsg :=
      { path_id := fe.path_id, swapping_node := st.ownName,
        partner := od.prev_partner, epr := next_epr.name,
        new_epr := psAndNew.2, destination := od.next_partner, fwd := false }
    let out2 ← send_swap_update st.ownName od.next_partner nextMsg route false
    let (_, qmem') := qmem.readAddr qubit.addr
    let (_, other_qmem') := other_qmem.readAddr other_qubit.addr
    let mems' := (st.memories.set mi qmem').set omi other_qmem'
    let prev_qubit' := { od.prev_qubit with fsm := QubitFSM.released }
    let next_qubit' := { od.next_qubit with fsm := QubitFSM.released }
    let ev1 := PFOutput.qubitReleased od.prev_memName prev_qubit' tc false
    let ev2 := PFOutput.qubitReleased od.next_memName next_qubit'
      (tc + 1 / 1000000) false
    return ({ st with memories := mems', parallelSwappings := psAndNew.1 },
            [out1, out2, ev1, ev2])

/--
The end-node branch of ProactiveRouting.eligible: destructively read the
slot (a missing EPR is the raised unpack error, none), move the qubit to
released, increment e2e_count and emit a QubitReleasedEvent whose e2e flag
is set exactly when the node's name is the literal "S".
-/
def eligible_end_node (st : PFState) (tc : ℚ) (mi : ℕ) (qubit : MemoryQubit) :
    Option (PFState × List PFOutput) := do
  let qmem ← st.memories.get? mi
  let _ ← (qmem.readAddr qubit.addr).1
  let qmem' := (qmem.readAddr qubit.addr).2
  let qubit' := { qubit with fsm := QubitFSM.released }
  let ev := PFOutput.qubitReleased qmem.name qubit' tc (st.ownName == "S")
  return ({ st with memories := st.memories.set mi qmem',
                    e2eCount := st.e2eCount + 1 }, [ev])

/--
ProactiveRouting.eligible: after the SYNC-phase guard (whose Python body
calls an undefined debug.log: the none result), dispatch on the node's
index in the route: intermediate nodes swap, end nodes consume.
-/
def eligible (swapFn : EPR → EPR → Option EPR) (st : PFState) (tc : ℚ)
    (mi : ℕ) (qubit : MemoryQubit) (fe : FIBEntry) :
    Option (PFState × List PFOutput) :=
  if st.timingMode = TimingMode.sync ∧ st.syncPhase ≠ SignalType.internalPhase then
    none
  else do
    let route := fe.path_vector
    let own_idx ← pyIndex route st.ownName
    if own_idx > 0 ∧ own_idx < route.length - 1 then
      eligible_intermediate swapFn st tc mi qubit fe own_idx
    else
      eligible_end_node st tc mi qubit

/-- ProactiveRouting.purif: the purification hook currently passes straight
through, moving the qubit to ELIGIBLE and continuing with eligible. -/
def purif (swapFn : EPR → EPR → Option EPR) (st : PFState) (tc : ℚ)
    (mi : ℕ) (qubit : MemoryQubit) (fe : FIBEntry) (partner : String) :
    Option (PFState × List PFOutput) :=
  let _ := partner
  let st' := { st with memories := setStateAt st.memories mi qubit.addr QubitFSM.eligible }
  eligible swapFn st' tc mi { qubit with fsm := QubitFSM.eligible } fe

/--
The destination branch of handle_signaling for a strictly higher own rank
(this node did not swap): when the message's EPR is still held in a memory,
release the slot if the new EPR is gone (null or past its decoherence
deadline), else rewrite the stored EPR from the message and, when the
updated qubit is eligible, continue via purif; a missing slot is only
logged.
-/
def handle_su_dest_higher (swapFn : EPR → EPR → Option EPR) (st : PFState)
    (tc : ℚ) (m : SwapUpdateMsg) (fe : FIBEntry) :
    Option (PFState × List PFOutput) :=
  match get_memory_qubit st.memories m.epr 0 with
  | some (mi, qubit) =>
    if newEprGone m.new_epr tc then do
      let qmem ← st.memories.get? mi
      let (_, qmem') := qmem.readAddr qubit.addr
      let qubit' := { qubit with fsm := QubitFSM.released }
      return ({ st with memories := st.memories.set mi qmem' },
              [PFOutput.qubitReleased qmem.name qubit' tc false])
    else do
      let ne ← m.new_epr
      let qmem ← st.memories.get? mi
      let (updated, qmem') := qmem.update m.epr ne
      let st1 := { st with memories := st.memories.set mi qmem' }
      if updated then do
        let cond ← eval_swapping_conditions st.ownName fe m.partner
        if cond then
          let st2 := { st1 with
            memories := setStateAt st1.memories mi qubit.addr QubitFSM.purif }
          purif swapFn st2 tc mi { qubit with fsm := QubitFSM.purif } fe m.partner
        else return (st1, [])
      else return (st1, [])
  | none => some (st, [])

/--
The destination branch of handle_signaling for an equal rank when this node
still holds the slot (there was no parallel swap): clear any parallel-swap
record for the message's EPR, then release the slot if the new EPR is gone,
else rewrite the stored EPR (without continuing to swap).
-/
def handle_su_dest_equal_slot (st : PFState) (tc : ℚ) (m : SwapUpdateMsg)
    (mi : ℕ) (qubit : MemoryQubit) : Option (PFState × List PFOutput) := do
  let st0 := { st with parallelSwappings := psPop st.parallelSwappings m.epr }
  if newEprGone m.new_epr tc then do
    let qmem ← st0.memories.get? mi
    let (_, qmem') := qmem.readAddr qubit.addr
    let qubit' := { qubit with fsm := QubitFSM.released }
    return ({ st0 with memories := st0.memories.set mi qmem' },
            [PFOutput.qubitReleased qmem.name qubit' tc false])
  else do
    let ne ← m.new_epr
    let qmem ← st0.memories.get? mi
    let (_, qmem') := qmem.update m.epr ne
    return ({ st0 with memories := st0.memories.set mi qmem' }, [])

/--
The parallel-swap reconciliation of handle_signaling (equal rank, slot
gone, record (shared, other, my_new) found): when the new EPR is gone,
forward a continuation SWAP_UPDATE with new_epr = None to the far side of
the other EPR and consume the record; otherwise merge the neighbor's swap
with the recorded other EPR (oracle swapFn), fix the merged endpoints,
forward the merged SWAP_UPDATE with delay, consume the record and register
a fresh record under the received EPR's name when the next partner is again
of equal rank and the merge succeeded.
-/
def handle_su_parallel (swapFn : EPR → EPR → Option EPR) (st : PFState)
    (tc : ℚ) (m : SwapUpdateMsg) (route : List String)
    (swap_sequence : List ℤ) (own_rank : ℤ)
    (shared_epr other_epr my_new_epr : EPR) :
    Option (PFState × List PFOutput) :=
  if newEprGone m.new_epr tc then do
    let (destination, partner) :=
      if other_epr.dst = st.ownName then (other_epr.src, shared_epr.dst)
      else (other_epr.dst, shared_epr.src)
    let fwdMsg : SwapUpdateMsg :=
      { path_id := m.path_id, swapping_node := m.swapping_node,
        partner := partner, epr := my_new_epr.name, new_epr := none,
        destination := destination, fwd := true }
    let out ← send_swap_update st.ownName destination fwdMsg route true
    return ({ st with parallelSwappings := psPop st.parallelSwappings m.epr },
            [out])
  else do
    let ne ← m.new_epr
    let merged0 := swapFn ne other_epr
    let (merged, partner, destination) :=
      if other_epr.dst = st.ownName then
        (merged0.map (fun me => { me with src := other_epr.src, dst := ne.dst }),
         ne.dst, other_epr.src)
      else
        (merged0.map (fun me => { me with src := ne.src, dst := other_epr.dst }),
         ne.src, other_epr.dst)
    let fwdMsg : SwapUpdateMsg :=
      { path_id := m.path_id, swapping_node := m.swapping_node,
        partner := partner, epr := my_new_epr.name, new_epr := merged,
        destination := destination, fwd := true }
    let out ← send_swap_update st.ownName destination fwdMsg route true
    let ps1 := psPop st.parallelSwappings m.epr
    let p_idx ← pyIndex route partner
    let p_rank ← swap_sequence.get? p_idx
    let ps2 :=
      match merged with
      | some me =>
        if own_rank = p_rank then psInsert ps1 ne.name (ne, other_epr, me)
        else ps1
      | none => ps1
    return ({ st with parallelSwappings := ps2 }, [out])

/--
ProactiveRouting.handle_signaling, SWAP_UPDATE branch.  After the SYNC-phase
guard (whose Python body calls an undefined debug.log: the none result) and
the FIB lookup, the handler compares the sender's swap rank with its own.
As the named destination: with a strictly higher own rank it proceeds via
handle_su_dest_higher; with an equal rank it proceeds via
handle_su_dest_equal_slot when it still holds the slot and via
handle_su_parallel when a parallel-swap record exists for the message's
EPR.  As a transit node it forwards the message when its rank is not higher
than the sender's.
-/
def handle_signaling (swapFn : EPR → EPR → Option EPR) (st : PFState) (tc : ℚ)
    (m : SwapUpdateMsg) (packetDest : String) :
    Option (PFState × List PFOutput) :=
  if st.timingMode = TimingMode.sync ∧ st.syncPhase ≠ SignalType.internalPhase then
    none
  else do
    let fe ← st.fib m.path_id
    let route := fe.path_vector
    let swap_sequence := fe.swap_sequence
    let sender_idx ← pyIndex route m.swapping_node
    let sender_rank ← swap_sequence.get? sender_idx
    let own_idx ← pyIndex route st.ownName
    let own_rank ← swap_sequence.get? own_idx
    if m.destination = st.ownName then
      if own_rank > sender_rank then
        handle_su_dest_higher swapFn st tc m fe
      else if own_rank = sender_rank then
        match get_memory_qubit st.memories m.epr 0 with
        | some (mi, qubit) => handle_su_dest_equal_slot st tc m mi qubit
        | none =>
          match psLookup st.parallelSwappings m.epr with
          | some (shared_epr, other_epr, my_new_epr) =>
            handle_su_parallel swapFn st tc m route swap_sequence own_rank
              shared_epr other_epr my_new_epr
          | none => some (st, [])
      else
        some (st, [])
    else
      if own_rank ≤ sender_rank then do
        let out ← send_swap_update st.ownName packetDest { m with fwd := true } route false
        return (st, [out])
      else some (st, [])

/-- ProactiveRouting.compute_qubit_allocation: the qubit counts requested on
the previous and next channel of a node along a path (m_v[i] qubits on the
channel between route[i] and route[i+1]). -/
def compute_qubit_allocation (path : List String) (m_v : List ℕ)
    (node : String) : Option ℕ × Option ℕ :=
  match pyIndex path node with
  | none => (none, none)
  | some idx =>
    (if idx > 0 then m_v.get? (idx - 1) else none,
     if idx < m_v.length then m_v.get? idx else none)

/-- Repeated QuantumMemory.allocate, as in the allocation loops of
ProactiveRouting.handle_control. -/
def allocate_loop : QuantumMemory → ℕ → ℕ → List ℤ × QuantumMemory
  | m, _, 0 => ([], m)
  | m, pid, Nat.succ n =>
    let (a, m') := m.allocate pid
    let (rest, m'') := allocate_loop m' pid n
    (a :: rest, m'')

/-- One side of the buffer-space allocation of
ProactiveRouting.handle_control: when the requested count is truthy and the
memory exists, the code allocates when the count is at least the number of
free slots and raises the fatal "Not enough qubits left" exception
otherwise. -/
def allocate_side (num : Option ℕ) (qmem : Option QuantumMemory)
    (path_id : ℕ) : Except String (List ℤ × Option QuantumMemory) :=
  match num, qmem with
  | some n, some mem =>
    if n = 0 then Except.ok ([], some mem)
    else if n ≥ mem.freeCount then
      let (qs, mem') := allocate_loop mem path_id n
      Except.ok (qs, some mem')
    else Except.error "Not enough qubits left for this allocation."
  | _, q => Except.ok ([], q)

/-- The allocate-all branch of ProactiveRouting.handle_control (no m_v
vector): a memory used with blocking mux must be completely free and all of
its qubits are allocated to the path. -/
def allocate_full (qmem : Option QuantumMemory) (path_id : ℕ) :
    Except String (List ℤ × Option QuantumMemory) :=
  match qmem with
  | some mem =>
    if mem.freeCount = mem.capacity then
      let (qs, mem') := allocate_loop mem path_id mem.freeCount
      Except.ok (qs, some mem')
    else Except.error ("Memory " ++ mem.name ++
      " has allocated qubits and cannot be used with Blocking mux.")
  | none => Except.ok ([], none)

/-- The qubit-allocation section of ProactiveRouting.handle_control (mux
dispatch over the previous and next memory of the node); a raised fatal
exception is the error result and performs no allocation. -/
def handle_control_allocation (mux : String) (m_v : List ℕ)
    (route : List String) (ownName : String) (path_id : ℕ)
    (prev_qmem next_qmem : Option QuantumMemory) :
    Except String (List ℤ × List ℤ × Option QuantumMemory × Option QuantumMemory) :=
  if mux = "B" then
    if m_v ≠ [] then do
      let (num_prev, num_next) := compute_qubit_allocation route m_v ownName
      let (prev_qubits, prev_qmem') ← allocate_side num_prev prev_qmem path_id
      let (next_qubits, next_qmem') ← allocate_side num_next next_qmem path_id
      return (prev_qubits, next_qubits, prev_qmem', next_qmem')
    else do
      let (prev_qubits, prev_qmem') ← allocate_full prev_qmem path_id
      let (next_qubits, next_qmem') ← allocate_full next_qmem path_id
      return (prev_qubits, next_qubits, prev_qmem', next_qmem')
  else Except.ok ([], [], prev_qmem, next_qmem)

/-! ## Concrete fixtures used by witnesses and counterexamples -/

/-- A free memory slot. -/
def slotFree : Slot :=
  { state := QubitFSM.free, pid := none, key := none, epr := none }

/-- A memory with two free slots, on the channel between S and R. -/
def memTwoFree : QuantumMemory :=
  { name := "S-R", slots := [slotFree, slotFree] }

/-- A slot reserved for path 0. -/
def slotReservedP0 : Slot :=
  { state := QubitFSM.reserved, pid := some 0, key := none, epr := none }

/-- The empty forwarding information base. -/
def fibEmpty : ForwardingInformationBase :=
  { table := fun _ => none, req_path_map := fun _ => none }

/-- A concrete FIB entry for path 1 of request 7. -/
def entryA : FIBEntry :=
  { path_id := 1, request_id := 7, path_vector := ["S", "R", "D"],
    swap_sequence := [0, 1, 0], purification_scheme := [] }

/-- A concrete EPR pair between R and S on path 0. -/
def eprRS : EPR :=
  { name := "e1", src := "R", dst := "S", fidelity := 99 / 100,
    decoherence_time := 10, path_id := some 0, ch_index := none,
    orig_eprs := [], is_decoherenced := false }

/-- A memory whose single slot is occupied (full), holding eprRS. -/
def memFull : QuantumMemory :=
  { name := "S-R",
    slots := [{ state := QubitFSM.occupied, pid := some 0, key := none,
                epr := some eprRS }] }

/-- A link-layer state in ASYNC mode with the S-R channel active. -/
def llStateA : LLState :=
  { ownName := "S", timingMode := TimingMode.async,
    syncPhase := SignalType.externalPhase, activeChannels := ["S-R"],
    init_fidelity := 99 / 100 }

/-- A concrete EPR pair between A and B on path 1. -/
def eprAB : EPR :=
  { name := "eAB", src := "A", dst := "B", fidelity := 99 / 100,
    decoherence_time := 10, path_id := some 1, ch_index := none,
    orig_eprs := [], is_decoherenced := false }

/-- A memory on the A-B channel whose slot 0 holds eprAB in ELIGIBLE state. -/
def memAB : QuantumMemory :=
  { name := "A-B",
    slots := [{ state := QubitFSM.eligible, pid := some 1, key := none,
                epr := some eprAB }] }

/-- A FIB entry for the two-node route A, B with swapping disabled. -/
def entryAB : FIBEntry :=
  { path_id := 1, request_id := 2, path_vector := ["A", "B"],
    swap_sequence := [0, 0], purification_scheme := [] }

/-- The FIB map holding only entryAB under path 1. -/
def fibAB : ℕ → Option FIBEntry :=
  fun p => if p = 1 then some entryAB else none

/-- A forwarder state for node A (the source endpoint of route A, B, but not
named S) in ASYNC mode. -/
def pfStateA : PFState :=
  { ownName := "A", timingMode := TimingMode.async,
    syncPhase := SignalType.internalPhase, memories := [memAB],
    parallelSwappings := [], e2eCount := 0, fib := fibAB }

/-- The qubit handle for slot 0 of memAB. -/
def qubitA : MemoryQubit :=
  { addr := 0, fsm := QubitFSM.eligible, pid := some 1 }

/-- A swap oracle that always fails (its outcome is irrelevant to the
fixtures that use it). -/
def swapNone : EPR → EPR → Option EPR := fun _ _ => none

/-- A concrete EPR pair between A and B on path 5, named e1. -/
def eprB : EPR :=
  { name := "e1", src := "A", dst := "B", fidelity := 99 / 100,
    decoherence_time := 10, path_id := some 5, ch_index := none,
    orig_eprs := [], is_decoherenced := false }

/-- A memory on the A-B channel whose slot 0 holds eprB, entangled. -/
def memBslot : Slot :=
  { state := QubitFSM.entangled, pid := some 5, key := none, epr := some eprB }

/-- The memory of node B towards A. -/
def memB : QuantumMemory :=
  { name := "A-B", slots := [memBslot] }

/-- A FIB entry for the route A, B, C with ranks 0, 1, 0. -/
def entryABC : FIBEntry :=
  { path_id := 5, request_id := 9, path_vector := ["A", "B", "C"],
    swap_sequence := [0, 1, 0], purification_scheme := [] }

/-- The FIB map holding only entryABC under path 5. -/
def fibABC : ℕ → Option FIBEntry :=
  fun p => if p = 5 then some entryABC else none

/-- A forwarder state for node B holding eprB. -/
def pfStateB : PFState :=
  { ownName := "B", timingMode := TimingMode.async,
    syncPhase := SignalType.internalPhase, memories := [memB],
    parallelSwappings := [], e2eCount := 0, fib := fibABC }

/-- A SWAP_UPDATE from A to B with new_epr = None for e1. -/
def msgNoneB : SwapUpdateMsg :=
  { path_id := 5, swapping_node := "A", partner := "C", epr := "e1",
    new_epr := none, destination := "B", fwd := false }

/-- A FIB entry for the route S, R1, R2, D with ranks 0, 1, 1, 0. -/
def entryR : FIBEntry :=
  { path_id := 3, request_id := 4, path_vector := ["S", "R1", "R2", "D"],
    swap_sequence := [0, 1, 1, 0], purification_scheme := [] }

/-- The FIB map holding only entryR under path 3. -/
def fibR : ℕ → Option FIBEntry :=
  fun p => if p = 3 then some entryR else none

/-- A forwarder state for node R1 with no stored qubits and no
parallel-swap records. -/
def pfStateR : PFState :=
  { ownName := "R1", timingMode := TimingMode.async,
    syncPhase := SignalType.internalPhase, memories := [],
    parallelSwappings := [], e2eCount := 0, fib := fibR }

/-- A SWAP_UPDATE from the equal-rank node R2 to R1 with new_epr = None. -/
def msgR : SwapUpdateMsg :=
  { path_id := 3, swapping_node := "R2", partner := "D", epr := "eX",
    new_epr := none, destination := "R1", fwd := false }

end Mqns

namespace Mqns

/-! ## Theorems -/

/--
Claim C3: for all length, alpha, eta_s, eta_d, the per-attempt success probability
is eta_s * eta_d * 10 ^ (-alpha L / 10) for the SR architecture,
(eta_d * 10 ^ (-alpha L / 20)) ^ 2 for the SIM architecture (independent of
eta_s), and 0.5 * (eta_s * eta_d * 10 ^ (-alpha L / 20)) ^ 2 for the DIM-BK
architecture.
-/
theorem success_prob_formulas (length alpha eta_s eta_d : ℝ) :
    LinkArchSr.success_prob length alpha eta_s eta_d
      = eta_s * eta_d * (10 : ℝ) ^ (-(alpha * length) / 10) ∧
    LinkArchSim.success_prob length alpha eta_s eta_d
      = (eta_d * (10 : ℝ) ^ (-(alpha * length) / 20)) ^ (2 : ℕ) ∧
    (∀ eta_s' : ℝ, LinkArchSim.success_prob length alpha eta_s' eta_d
      = LinkArchSim.success_prob length alpha eta_s eta_d) ∧
    LinkArchDimBk.success_prob length alpha eta_s eta_d
      = 0.5 * (eta_s * eta_d * (10 : ℝ) ^ (-(alpha * length) / 20)) ^ (2 : ℕ) := by
  have h2 : (-alpha * length / 2 / 10 : ℝ) = -(alpha * length) / 20 := by ring
  have h1 : (-alpha * length / 10 : ℝ) = -(alpha * length) / 10 := by ring
  refine ⟨?_, ?_, ?_, ?_⟩
  · unfold LinkArchSr.success_prob
    rw [h1]
  · unfold LinkArchSim.success_prob
    rw [h2]
  · intro eta_s'
    rfl
  · unfold LinkArchDimBk.success_prob
    rw [h2]

/--
Claim C7: for every link architecture (SR, SIM, DIM-BK, DIM-BK-Seq), every attempt
index k and all reset_time, tau_l, tau_0, the EPR-creation component of
delays(k+1) minus that of delays(k) equals the architecture's attempt
duration: the maximum of the architecture-specific multiple of
(tau_l + tau_0) and reset_time.
-/
theorem delays_linear_in_attempts (k : ℕ) (reset_time tau_l tau_0 : ℝ) :
    (LinkArchSr.delays (k + 1) reset_time tau_l tau_0).1
      - (LinkArchSr.delays k reset_time tau_l tau_0).1
      = max (2 * (tau_l + tau_0)) reset_time ∧
    (LinkArchSim.delays (k + 1) reset_time tau_l tau_0).1
      - (LinkArchSim.delays k reset_time tau_l tau_0).1
      = max (tau_l + tau_0) reset_time ∧
    (LinkArchDimBk.delays (k + 1) reset_time tau_l tau_0).1
      - (LinkArchDimBk.delays k reset_time tau_l tau_0).1
      = max (2 * (tau_l + tau_0)) reset_time ∧
    (LinkArchDimBkSeq.delays (k + 1) reset_time tau_l tau_0).1
      - (LinkArchDimBkSeq.delays k reset_time tau_l tau_0).1
      = max (5 * (tau_l + tau_0)) reset_time := by
  unfold LinkArchSr.delays LinkArchSim.delays LinkArchDimBk.delays LinkArchDimBkSeq.delays
  push_cast
  refine ⟨by ring, by ring, by ring, by ring⟩

/--
Claim C8: compute_distances_distribution(L, n, "uniform") returns a list of n + 1
segment lengths (the single segment [L] when n = 0) whose sum is at most L
and differs from L by at most n + 1.
-/
theorem compute_distances_distribution_uniform_bounds
    (end_to_end_distance number_of_routers : ℕ) :
    (compute_distances_distribution_uniform end_to_end_distance number_of_routers).length
      = number_of_routers + 1 ∧
    (number_of_routers = 0 →
      compute_distances_distribution_uniform end_to_end_distance number_of_routers
        = [end_to_end_distance]) ∧
    (compute_distances_distribution_uniform end_to_end_distance number_of_routers).sum
      ≤ end_to_end_distance ∧
    end_to_end_distance -
      (compute_distances_distribution_uniform end_to_end_distance number_of_routers).sum
      ≤ number_of_routers + 1 := by
  unfold compute_distances_distribution_uniform
  by_cases h : number_of_routers = 0
  · simp [h]
  · rw [if_neg h]
    have hlen : (List.replicate (number_of_routers + 1)
        (end_to_end_distance / (number_of_routers + 1))).length
        = number_of_routers + 1 := List.length_replicate _ _
    have hsum : (List.replicate (number_of_routers + 1)
        (end_to_end_distance / (number_of_routers + 1))).sum
        = (number_of_routers + 1) * (end_to_end_distance / (number_of_routers + 1)) := by
      rw [List.sum_replicate, smul_eq_mul]
    have hdm := Nat.div_add_mod end_to_end_distance (number_of_routers + 1)
    have hml : end_to_end_distance % (number_of_routers + 1) < number_of_routers + 1 :=
      Nat.mod_lt _ (Nat.succ_pos _)
    refine ⟨hlen, by intro hz; exact absurd hz h, ?_, ?_⟩
    · rw [hsum]; omega
    · rw [hsum]; omega

/-- Witness for C8 at a concrete input: 150 km over 4 routers. -/
theorem compute_distances_distribution_uniform_bounds_witness :
    (compute_distances_distribution_uniform 150 4).length = 4 + 1 ∧
    (4 = 0 → compute_distances_distribution_uniform 150 4 = [150]) ∧
    (compute_distances_distribution_uniform 150 4).sum ≤ 150 ∧
    150 - (compute_distances_distribution_uniform 150 4).sum ≤ 4 + 1 :=
  compute_distances_distribution_uniform_bounds 150 4

/--
Claim C10: ForwardingInformationBase.get(path_id) returns the stored entry when an
entry with that path_id is present, raises IndexError (not KeyError) when it
is absent, and leaves the FIB unchanged in both cases.
-/
theorem fib_get_semantics (f : ForwardingInformationBase) (path_id : ℕ) :
    (f.get path_id).2 = f ∧
    (f.get path_id).1
      = (match f.table path_id with
         | some e => Except.ok e
         | none => Except.error (PyErr.indexError
             ("FIB entry not found for path_id=" ++ toString path_id))) := by
  unfold ForwardingInformationBase.get dictAccess
  cases h : f.table path_id <;> simp [h]

/--
Claim C6 evidence: the buffer-space allocation guard of handle_control is
inverted.  With m_v requesting 3 qubits on the next channel while its
memory has only 2 free slots, the code allocates (the third allocate
returning the -1 failure sentinel) and raises no exception, although the
specification says a request strictly greater than the number of free slots
is a fatal error; conversely a request of 1 qubit with 2 slots free
(enough qubits available) raises the fatal "Not enough qubits left"
exception.
-/
theorem handle_control_allocation_guard_inverted :
    handle_control_allocation "B" [3] ["S", "R"] "S" 0 none (some memTwoFree)
      = Except.ok ([], [0, 1, -1], none,
          some { name := "S-R", slots := [slotReservedP0, slotReservedP0] }) ∧
    handle_control_allocation "B" [1] ["S", "R"] "S" 0 none (some memTwoFree)
      = Except.error "Not enough qubits left for this allocation." := by
  constructor <;> rfl

/-- Pointwise update: value at the updated key. -/
theorem upd_self {α : Type} (d : ℕ → Option α) (k : ℕ) (v : Option α) :
    upd d k v k = v := by
  simp [upd]

/-- Pointwise update: value at another key. -/
theorem upd_ne {α : Type} (d : ℕ → Option α) (k x : ℕ) (v : Option α)
    (h : x ≠ k) : upd d k v x = d x := by
  simp [upd, h]

/-- Characterization of erase on a present entry whose request-index set is
well formed: both indices are cleaned, the request-index key being deleted
when its set becomes empty. -/
theorem erase_found (f : ForwardingInformationBase) (pid : ℕ)
    (old : FIBEntry) (ps0 : Finset ℕ)
    (h : f.table pid = some old)
    (hps : f.req_path_map old.request_id = some ps0)
    (hmem : pid ∈ ps0) :
    f.erase pid = some
      { table := upd f.table pid none,
        req_path_map :=
          if ps0.erase pid = ∅ then upd f.req_path_map old.request_id none
          else upd f.req_path_map old.request_id (some (ps0.erase pid)) } := by
  unfold ForwardingInformationBase.erase
  rw [h]
  simp only [hps, Option.bind_eq_bind, Option.some_bind, bind, hmem, if_pos]
  split <;> rfl

/-- Characterization of insert_or_replace through the result of the
internal erase: store the entry and list its path id under its request id
(setdefault with the empty set). -/
theorem insert_or_replace_eq (f f1 : ForwardingInformationBase) (e : FIBEntry)
    (h : f.erase e.path_id = some f1) :
    f.insert_or_replace e = some
      { table := upd f1.table e.path_id (some e),
        req_path_map := upd f1.req_path_map e.request_id
          (some (insert e.path_id ((f1.req_path_map e.request_id).getD ∅))) } := by
  unfold ForwardingInformationBase.insert_or_replace
  rw [h]
  rfl

/--
Claim C5: erase(path_id) is a no-op when no entry with that path_id exists; and
after insert_or_replace of an entry into a consistent FIB, the table maps
the entry's path_id to exactly the new entry, all other path_ids are
untouched, and the path_id is listed in the request index under exactly the
new entry's request_id (so any previous entry with the same path_id has
been removed from both the table and the request index).
-/
theorem fib_erase_noop_and_insert_replaces
    (f : ForwardingInformationBase) (e : FIBEntry)
    (hc : f.Consistent) :
    (∀ pid, f.table pid = none → f.erase pid = some f) ∧
    ∃ f', f.insert_or_replace e = some f' ∧
      f'.table e.path_id = some e ∧
      (∀ pid, pid ≠ e.path_id → f'.table pid = f.table pid) ∧
      (∃ ps, f'.req_path_map e.request_id = some ps ∧ e.path_id ∈ ps) ∧
      (∀ rid ps, f'.req_path_map rid = some ps →
        (e.path_id ∈ ps ↔ rid = e.request_id)) := by
  have eraseNoop : ∀ pid, f.table pid = none → f.erase pid = some f := by
    intro pid h
    unfold ForwardingInformationBase.erase
    rw [h]
  refine ⟨eraseNoop, ?_⟩
  cases h : f.table e.path_id with
  | none =>
    refine ⟨_, insert_or_replace_eq f f e (eraseNoop e.path_id h), ?_, ?_, ?_, ?_⟩
    · exact upd_self _ _ _
    · intro pid hpid
      exact upd_ne _ _ _ _ hpid
    · exact ⟨_, upd_self _ _ _, Finset.mem_insert_self _ _⟩
    · intro rid ps hps
      dsimp only at hps
      by_cases hrid : rid = e.request_id
      · subst hrid
        rw [upd_self] at hps
        cases hps
        simp
      · rw [upd_ne _ _ _ _ hrid] at hps
        simp only [hrid, iff_false]
        intro hmem
        obtain ⟨en, hen, _⟩ := hc.2 rid ps e.path_id hps hmem
        rw [h] at hen
        exact Option.noConfusion hen
  | some old =>
    obtain ⟨ps0, hps0, hmem0⟩ := hc.1 e.path_id old h
    have herase := erase_found f e.path_id old ps0 h hps0 hmem0
    refine ⟨_, insert_or_replace_eq f _ e herase, ?_, ?_, ?_, ?_⟩
    · exact upd_self _ _ _
    · intro pid hpid
      show upd (upd f.table e.path_id none) e.path_id (some e) pid = f.table pid
      rw [upd_ne _ _ _ _ hpid, upd_ne _ _ _ _ hpid]
    · exact ⟨_, upd_self _ _ _, Finset.mem_insert_self _ _⟩
    · intro rid ps hps
      dsimp only at hps
      by_cases hrid : rid = e.request_id
      · subst hrid
        rw [upd_self] at hps
        cases hps
        simp
      · rw [upd_ne _ _ _ _ hrid] at hps
        simp only [hrid, iff_false]
        intro hmem
        by_cases hrold : rid = old.request_id
        · subst hrold
          by_cases hempty : ps0.erase e.path_id = ∅
          · rw [if_pos hempty, upd_self] at hps
            exact Option.noConfusion hps
          · rw [if_neg hempty, upd_self] at hps
            cases hps
            exact Finset.not_mem_erase _ _ hmem
        · have hkeep : f.req_path_map rid = some ps := by
            by_cases hempty : ps0.erase e.path_id = ∅
            · rw [if_pos hempty, upd_ne _ _ _ _ hrold] at hps
              exact hps
            · rw [if_neg hempty, upd_ne _ _ _ _ hrold] at hps
              exact hps
          obtain ⟨en, hen, henrid⟩ := hc.2 rid ps e.path_id hkeep hmem
          rw [h] at hen
          cases hen
          exact hrold henrid.symm

/-- Witness for C5 at a concrete input: the empty FIB is consistent, so the
theorem applies with every hypothesis discharged. -/
theorem fib_erase_noop_and_insert_replaces_witness :
    (∀ pid, fibEmpty.table pid = none → fibEmpty.erase pid = some fibEmpty) ∧
    ∃ f', fibEmpty.insert_or_replace entryA = some f' ∧
      f'.table entryA.path_id = some entryA ∧
      (∀ pid, pid ≠ entryA.path_id → f'.table pid = fibEmpty.table pid) ∧
      (∃ ps, f'.req_path_map entryA.request_id = some ps ∧ entryA.path_id ∈ ps) ∧
      (∀ rid ps, f'.req_path_map rid = some ps →
        (entryA.path_id ∈ ps ↔ rid = entryA.request_id)) :=
  fib_erase_noop_and_insert_replaces fibEmpty entryA
    ⟨fun _ _ h => Option.noConfusion h, fun _ _ _ h => Option.noConfusion h⟩

/--
Claim C4: when a generate_entanglement attempt finds the sender-side memory full
(the memory write returns no qubit), the attempt is dropped silently: no
qubit is sent on the quantum channel and no classical message is emitted;
and when an incoming half-EPR cannot be stored because the receiver-side
memory write returns none, the receiver sends an epr_failed classical
message carrying the EPR's path_id and name back to the sending node.
-/
theorem link_layer_memory_full_semantics (st : LLState) :
    (∀ qchannelName nextHop qmemory address freshName dt,
      ¬(st.timingMode = TimingMode.sync ∧ st.syncPhase ≠ SignalType.externalPhase) →
      qchannelName ∈ st.activeChannels →
      (qmemory.write (LinkLayer.generate_epr st nextHop freshName dt) none address).1
        = none →
      (LinkLayer.generate_entanglement st qchannelName nextHop qmemory address
        freshName dt).2 = []) ∧
    (∀ fromNode epr qmemory cchannelDelay,
      ¬(st.timingMode = TimingMode.sync ∧ st.syncPhase ≠ SignalType.externalPhase) →
      epr.is_decoherenced = false →
      (qmemory.write epr epr.path_id none).1 = none →
      (LinkLayer.handle_distribution st fromNode epr qmemory cchannelDelay).2
        = [LLOutput.classicSent
            { cmd := "epr_failed", path_id := epr.path_id, epr_id := epr.name }
            fromNode]) := by
  constructor
  · intro qchannelName nextHop qmemory address freshName dt hguard hactive hw
    unfold LinkLayer.generate_entanglement
    rw [if_neg hguard, if_neg (by simpa using hactive)]
    rcases hpair : qmemory.write (LinkLayer.generate_epr st nextHop freshName dt)
      none address with ⟨r, qmem'⟩
    rw [hpair] at hw
    cases hw
    simp [hpair]
  · intro fromNode epr qmemory cchannelDelay hguard hdec hw
    unfold LinkLayer.handle_distribution
    rw [if_neg hguard, hdec]
    rcases hpair : qmemory.write epr epr.path_id none with ⟨r, qmem'⟩
    rw [hpair] at hw
    cases hw
    simp [hpair]

/-- Witness for C4: a full one-slot memory rejects both the sender-side and
the receiver-side write, and the theorem applies with every hypothesis
discharged at that concrete state. -/
theorem link_layer_memory_full_semantics_witness :
    (LinkLayer.generate_entanglement llStateA "S-R" "R" memFull none "e2" 10).2 = [] ∧
    (LinkLayer.handle_distribution llStateA "R" eprRS memFull 1).2
      = [LLOutput.classicSent
          { cmd := "epr_failed", path_id := eprRS.path_id, epr_id := eprRS.name } "R"] :=
  ⟨(link_layer_memory_full_semantics llStateA).1 "S-R" "R" memFull none "e2" 10
      (by decide) (by decide) (by rfl),
   (link_layer_memory_full_semantics llStateA).2 "R" eprRS memFull 1
      (by decide) (by rfl) (by rfl)⟩

/--
Claim C2 (amended): when a qubit becomes ELIGIBLE at an end node of its path (the
node's index in path_vector is 0 or the last index), eligible destructively
reads out and releases the slot (freeing it), increments e2e_count by
exactly one, and emits a QubitReleasedEvent whose e2e flag is true if and
only if the node's name is the literal "S" (not: iff the node is the source
endpoint of the path).
-/
theorem eligible_end_node_consume (swapFn : EPR → EPR → Option EPR)
    (st : PFState) (tc : ℚ) (mi : ℕ) (qubit : MemoryQubit) (fe : FIBEntry)
    (oi : ℕ) (qmem : QuantumMemory) (s : Slot) (e : EPR)
    (hguard : ¬(st.timingMode = TimingMode.sync ∧
      st.syncPhase ≠ SignalType.internalPhase))
    (hoi : pyIndex fe.path_vector st.ownName = some oi)
    (hend : oi = 0 ∨ oi = fe.path_vector.length - 1)
    (hm : st.memories.get? mi = some qmem)
    (hs : qmem.slots.get? qubit.addr = some s)
    (he : s.epr = some e) :
    eligible swapFn st tc mi qubit fe
      = some ({ st with
                  memories := st.memories.set mi (qmem.readAddr qubit.addr).2,
                  e2eCount := st.e2eCount + 1 },
              [PFOutput.qubitReleased qmem.name
                { qubit with fsm := QubitFSM.released } tc (st.ownName == "S")])
      ∧ (qmem.readAddr qubit.addr).2.slots.get? qubit.addr
          = some { s with state := QubitFSM.free, epr := none } := by
  have hnotmid : ¬(oi > 0 ∧ oi < fe.path_vector.length - 1) := by
    rcases hend with h0 | hl
    · omega
    · omega
  have hread : qmem.readAddr qubit.addr
      = (some (QuantumMemory.qubitAt s qubit.addr, e),
         QuantumMemory.mk qmem.name
           (qmem.slots.set qubit.addr (Slot.mk QubitFSM.free s.pid s.key none))) := by
    unfold QuantumMemory.readAddr
    simp only [hs, he]
  have hlt : qubit.addr < qmem.slots.length := by
    by_contra hge
    rw [List.get?_eq_none.2 (le_of_not_lt hge)] at hs
    exact Option.noConfusion hs
  constructor
  · unfold eligible
    rw [if_neg hguard]
    simp only [hoi, Option.bind_eq_bind', Option.some_bind]
    rw [if_neg hnotmid]
    unfold eligible_end_node
    simp only [hm, Option.bind_eq_bind', Option.some_bind, hread, Option.pure_def]
  · rw [hread]
    simp [List.get?_eq_getElem?, List.getElem?_set_self, hlt]

/--
Claim C2 counterexample: node A is the source endpoint (index 0) of the route
A, B, yet on consuming an ELIGIBLE qubit at A the emitted QubitReleasedEvent
carries e2e = false, because the code tests the literal node name "S"
rather than the position on the path.
-/
theorem eligible_e2e_flag_counterexample :
    pyIndex entryAB.path_vector pfStateA.ownName = some 0 ∧
    (eligible swapNone pfStateA 0 0 qubitA entryAB).map Prod.snd
      = some [PFOutput.qubitReleased "A-B"
          { qubitA with fsm := QubitFSM.released } 0 false] := by
  constructor
  · rfl
  · rfl

/-- Looking up the popped key finds nothing. -/
theorem psLookup_psPop (l : PSMap) (k : String) :
    psLookup (psPop l k) k = none := by
  induction l with
  | nil => rfl
  | cons a rest ih =>
    by_cases ha : a.1 = k
    · simpa [psPop, ha] using ih
    · simpa [psPop, psLookup, ha] using ih

/-- Replacing the value under a different key does not change a lookup. -/
theorem psLookup_map_ne (l : PSMap) (k k' : String) (v : EPR × EPR × EPR)
    (h : k' ≠ k) :
    psLookup (l.map (fun p => if p.1 = k' then (k', v) else p)) k
      = psLookup l k := by
  induction l with
  | nil => rfl
  | cons a rest ih =>
    by_cases ha : a.1 = k'
    · simp only [List.map_cons, ha, if_pos]
      rw [psLookup, psLookup, if_neg h, ha, if_neg h]
      exact ih
    · simp only [List.map_cons, ha, ite_false]
      rw [psLookup, psLookup]
      by_cases hak : a.1 = k
      · rw [if_pos hak, if_pos hak]
      · rw [if_neg hak, if_neg hak]
        exact ih

/-- Appending a record under a different key does not change a lookup. -/
theorem psLookup_append_ne (l : PSMap) (k k' : String) (v : EPR × EPR × EPR)
    (h : k' ≠ k) :
    psLookup (l ++ [(k', v)]) k = psLookup l k := by
  induction l with
  | nil => simp [psLookup, h]
  | cons a rest ih =>
    rw [List.cons_append, psLookup, psLookup]
    by_cases hak : a.1 = k
    · rw [if_pos hak, if_pos hak]
    · rw [if_neg hak, if_neg hak]
      exact ih

/-- Inserting under a different key does not change a lookup. -/
theorem psLookup_psInsert_ne (l : PSMap) (k k' : String)
    (v : EPR × EPR × EPR) (h : k' ≠ k) :
    psLookup (psInsert l k' v) k = psLookup l k := by
  unfold psInsert
  split
  · exact psLookup_map_ne l k k' v h
  · exact psLookup_append_ne l k k' v h

/-- Reduction of handle_signaling for a message whose named destination is
this node, through the FIB entry and the two ranks. -/
theorem handle_signaling_dest_cases (swapFn : EPR → EPR → Option EPR)
    (st : PFState) (tc : ℚ) (m : SwapUpdateMsg) (packetDest : String)
    (fe : FIBEntry) (si oi : ℕ) (sr orr : ℤ)
    (hguard : ¬(st.timingMode = TimingMode.sync ∧
      st.syncPhase ≠ SignalType.internalPhase))
    (hfib : st.fib m.path_id = some fe)
    (hsi : pyIndex fe.path_vector m.swapping_node = some si)
    (hsr : fe.swap_sequence.get? si = some sr)
    (hoi : pyIndex fe.path_vector st.ownName = some oi)
    (hor : fe.swap_sequence.get? oi = some orr)
    (hdest : m.destination = st.ownName) :
    handle_signaling swapFn st tc m packetDest =
      (if orr > sr then handle_su_dest_higher swapFn st tc m fe
       else if orr = sr then
         match get_memory_qubit st.memories m.epr 0 with
         | some (mi, qubit) => handle_su_dest_equal_slot st tc m mi qubit
         | none =>
           match psLookup st.parallelSwappings m.epr with
           | some (shared_epr, other_epr, my_new_epr) =>
             handle_su_parallel swapFn st tc m fe.path_vector fe.swap_sequence
               orr shared_epr other_epr my_new_epr
           | none => some (st, [])
       else some (st, [])) := by
  unfold handle_signaling
  rw [if_neg hguard]
  simp only [hfib, hsi, hsr, hoi, hor, Option.bind_eq_bind', Option.some_bind]
  rw [if_pos hdest]

/-- The release path of handle_su_dest_higher: a held slot and a gone new
EPR lead to a destructive read and a QubitReleasedEvent. -/
theorem handle_su_dest_higher_release (swapFn : EPR → EPR → Option EPR)
    (st : PFState) (tc : ℚ) (m : SwapUpdateMsg) (fe : FIBEntry)
    (mi : ℕ) (qubit : MemoryQubit) (qmem : QuantumMemory)
    (hq : get_memory_qubit st.memories m.epr 0 = some (mi, qubit))
    (hnew : m.new_epr = none)
    (hm : st.memories.get? mi = some qmem) :
    handle_su_dest_higher swapFn st tc m fe
      = some ({ st with memories := st.memories.set mi (qmem.readAddr qubit.addr).2 },
              [PFOutput.qubitReleased qmem.name
                { qubit with fsm := QubitFSM.released } tc false]) := by
  unfold handle_su_dest_higher
  simp only [hq]
  have hgone : newEprGone m.new_epr tc = true := by rw [hnew]; rfl
  rw [if_pos hgone]
  rcases hr : qmem.readAddr qubit.addr with ⟨r1, qm2⟩
  simp only [hm, hr, Option.bind_eq_bind', Option.some_bind, Option.pure_def]

/-- The release path of handle_su_dest_equal_slot: the parallel-swap record
is cleared and the slot released with a QubitReleasedEvent. -/
theorem handle_su_dest_equal_slot_release (st : PFState) (tc : ℚ)
    (m : SwapUpdateMsg) (mi : ℕ) (qubit : MemoryQubit) (qmem : QuantumMemory)
    (hnew : m.new_epr = none)
    (hm : st.memories.get? mi = some qmem) :
    handle_su_dest_equal_slot st tc m mi qubit
      = some ({ st with
                  memories := st.memories.set mi (qmem.readAddr qubit.addr).2,
                  parallelSwappings := psPop st.parallelSwappings m.epr },
              [PFOutput.qubitReleased qmem.name
                { qubit with fsm := QubitFSM.released } tc false]) := by
  unfold handle_su_dest_equal_slot
  have hgone : newEprGone m.new_epr tc = true := by rw [hnew]; rfl
  rw [if_pos hgone]
  rcases hr : qmem.readAddr qubit.addr with ⟨r1, qm2⟩
  simp only [hm, hr, Option.bind_eq_bind', Option.some_bind, Option.pure_def]

/-- Witness for C2 at a concrete input: the theorem applied to node A
consuming at the source endpoint of route A, B. -/
theorem eligible_end_node_consume_witness :
    eligible swapNone pfStateA 0 0 qubitA entryAB
      = some ({ pfStateA with
                  memories := pfStateA.memories.set 0 (memAB.readAddr qubitA.addr).2,
                  e2eCount := pfStateA.e2eCount + 1 },
              [PFOutput.qubitReleased memAB.name
                { qubitA with fsm := QubitFSM.released } 0 (pfStateA.ownName == "S")])
      ∧ (memAB.readAddr qubitA.addr).2.slots.get? qubitA.addr
          = some { state := QubitFSM.free, pid := some 1, key := none, epr := none } :=
  eligible_end_node_consume swapNone pfStateA 0 0 qubitA entryAB 0 memAB
    { state := QubitFSM.eligible, pid := some 1, key := none, epr := some eprAB }
    eprAB
    (by decide) (by rfl) (Or.inl rfl) (by rfl) (by rfl) (by rfl)

/--
Claim C1: for every SWAP_UPDATE message with new_epr = None whose destination
names the receiving node, if that node still holds a memory slot for the
EPR named in the message, then handle_signaling destructively reads that
slot (freeing it), moves the qubit to the released state and schedules a
QubitReleasedEvent for it; this holds both when the receiver's rank is
strictly greater than the sender's rank and when the two ranks are equal.
-/
theorem swap_update_none_releases (swapFn : EPR → EPR → Option EPR)
    (st : PFState) (tc : ℚ) (m : SwapUpdateMsg) (packetDest : String)
    (fe : FIBEntry) (si oi : ℕ) (sr orr : ℤ) (mi : ℕ)
    (qubit : MemoryQubit) (qmem : QuantumMemory) (s : Slot) (e : EPR)
    (hguard : ¬(st.timingMode = TimingMode.sync ∧
      st.syncPhase ≠ SignalType.internalPhase))
    (hfib : st.fib m.path_id = some fe)
    (hsi : pyIndex fe.path_vector m.swapping_node = some si)
    (hsr : fe.swap_sequence.get? si = some sr)
    (hoi : pyIndex fe.path_vector st.ownName = some oi)
    (hor : fe.swap_sequence.get? oi = some orr)
    (hdest : m.destination = st.ownName)
    (hrank : sr ≤ orr)
    (hnew : m.new_epr = none)
    (hq : get_memory_qubit st.memories m.epr 0 = some (mi, qubit))
    (hm : st.memories.get? mi = some qmem)
    (hs : qmem.slots.get? qubit.addr = some s)
    (he : s.epr = some e) :
    ∃ st', handle_signaling swapFn st tc m packetDest
        = some (st', [PFOutput.qubitReleased qmem.name
            { qubit with fsm := QubitFSM.released } tc false])
      ∧ st'.memories = st.memories.set mi (qmem.readAddr qubit.addr).2
      ∧ (qmem.readAddr qubit.addr).2.slots.get? qubit.addr
          = some { s with state := QubitFSM.free, epr := none } := by
  have hread : qmem.readAddr qubit.addr
      = (some (QuantumMemory.qubitAt s qubit.addr, e),
         QuantumMemory.mk qmem.name
           (qmem.slots.set qubit.addr (Slot.mk QubitFSM.free s.pid s.key none))) := by
    unfold QuantumMemory.readAddr
    simp only [hs, he]
  have hlt : qubit.addr < qmem.slots.length := by
    by_contra hge
    rw [List.get?_eq_none.2 (le_of_not_lt hge)] at hs
    exact Option.noConfusion hs
  have hfree : (qmem.readAddr qubit.addr).2.slots.get? qubit.addr
      = some { s with state := QubitFSM.free, epr := none } := by
    rw [hread]
    simp [List.get?_eq_getElem?, List.getElem?_set_self, hlt]
  rw [handle_signaling_dest_cases swapFn st tc m packetDest fe si oi sr orr
    hguard hfib hsi hsr hoi hor hdest]
  rcases lt_or_eq_of_le hrank with hlt2 | heq
  · rw [if_pos hlt2,
      handle_su_dest_higher_release swapFn st tc m fe mi qubit qmem hq hnew hm]
    exact ⟨_, rfl, rfl, hfree⟩
  · rw [if_neg (by omega)]
    rw [if_pos heq.symm]
    simp only [hq]
    rw [handle_su_dest_equal_slot_release st tc m mi qubit qmem hnew hm]
    exact ⟨_, rfl, rfl, hfree⟩

/-- Witness for C1 at a concrete input: node B (rank 1) receives a
SWAP_UPDATE with new_epr = None from A (rank 0) for the held pair e1, and
the theorem applies with every hypothesis discharged. -/
theorem swap_update_none_releases_witness :
    ∃ st', handle_signaling swapNone pfStateB 0 msgNoneB "B"
        = some (st', [PFOutput.qubitReleased memB.name
            { addr := 0, fsm := QubitFSM.released, pid := some 5 } 0 false])
      ∧ st'.memories = pfStateB.memories.set 0 (memB.readAddr 0).2
      ∧ (memB.readAddr 0).2.slots.get? 0
          = some { memBslot with state := QubitFSM.free, epr := none } :=
  swap_update_none_releases swapNone pfStateB 0 msgNoneB "B" entryABC
    0 1 0 1 0 { addr := 0, fsm := QubitFSM.entangled, pid := some 5 }
    memB memBslot eprB
    (by decide) (by rfl) (by rfl) (by rfl) (by rfl) (by rfl) (by rfl)
    (by decide) (by rfl) (by rfl) (by rfl) (by rfl) (by rfl)

/-- The parallel-swap record of the message's EPR is cleared whenever the
equal-rank slot-present branch returns. -/
theorem handle_su_dest_equal_slot_ps (st : PFState) (tc : ℚ)
    (m : SwapUpdateMsg) (mi : ℕ) (qubit : MemoryQubit)
    (result : PFState × List PFOutput)
    (h : handle_su_dest_equal_slot st tc m mi qubit = some result) :
    result.1.parallelSwappings = psPop st.parallelSwappings m.epr := by
  unfold handle_su_dest_equal_slot at h
  dsimp only at h
  split at h
  · rw [Option.bind_eq_bind', Option.bind_eq_some] at h
    obtain ⟨qmem, hqm, h⟩ := h
    rcases hr : qmem.readAddr qubit.addr with ⟨r1, qm2⟩
    rw [hr] at h
    dsimp only [Option.pure_def] at h
    cases h
    rfl
  · rw [Option.bind_eq_bind', Option.bind_eq_some] at h
    obtain ⟨ne, hne, h⟩ := h
    rw [Option.bind_eq_bind', Option.bind_eq_some] at h
    obtain ⟨qmem, hqm, h⟩ := h
    rcases hu : qmem.update m.epr ne with ⟨upd2, qm2⟩
    rw [hu] at h
    dsimp only [Option.pure_def] at h
    cases h
    rfl

/-- Whenever the parallel-swap reconciliation returns, the record keyed by
the message's EPR is gone, provided any received new EPR has a different
name. -/
theorem handle_su_parallel_lookup (swapFn : EPR → EPR → Option EPR)
    (st : PFState) (tc : ℚ) (m : SwapUpdateMsg) (route : List String)
    (swap_sequence : List ℤ) (own_rank : ℤ)
    (shared_epr other_epr my_new_epr : EPR)
    (result : PFState × List PFOutput)
    (hname : ∀ ne, m.new_epr = some ne → ne.name ≠ m.epr)
    (h : handle_su_parallel swapFn st tc m route swap_sequence own_rank
      shared_epr other_epr my_new_epr = some result) :
    psLookup result.1.parallelSwappings m.epr = none := by
  unfold handle_su_parallel at h
  split at h
  · by_cases hdst : other_epr.dst = st.ownName
    · rw [if_pos hdst] at h
      dsimp only at h
      rw [Option.bind_eq_bind', Option.bind_eq_some] at h
      obtain ⟨out, hsend, h⟩ := h
      dsimp only [Option.pure_def] at h
      cases h
      exact psLookup_psPop _ _
    · rw [if_neg hdst] at h
      dsimp only at h
      rw [Option.bind_eq_bind', Option.bind_eq_some] at h
      obtain ⟨out, hsend, h⟩ := h
      dsimp only [Option.pure_def] at h
      cases h
      exact psLookup_psPop _ _
  · rw [Option.bind_eq_bind', Option.bind_eq_some] at h
    obtain ⟨ne, hne, h⟩ := h
    have hnm : ne.name ≠ m.epr := hname ne hne
    by_cases hdst : other_epr.dst = st.ownName
    · dsimp only at h
      rw [if_pos hdst] at h
      dsimp only at h
      rw [Option.bind_eq_bind', Option.bind_eq_some] at h
      obtain ⟨out, hsend, h⟩ := h
      rw [Option.bind_eq_bind', Option.bind_eq_some] at h
      obtain ⟨p_idx, hpi, h⟩ := h
      rw [Option.bind_eq_bind', Option.bind_eq_some] at h
      obtain ⟨p_rank, hpr, h⟩ := h
      dsimp only [Option.pure_def] at h
      cases h
      cases hsw : swapFn ne other_epr with
      | none =>
        simp only [hsw, Option.map_none']
        exact psLookup_psPop _ _
      | some me =>
        simp only [hsw, Option.map_some']
        split
        · rw [psLookup_psInsert_ne _ _ _ _ hnm]
          exact psLookup_psPop _ _
        · exact psLookup_psPop _ _
    · dsimp only at h
      rw [if_neg hdst] at h
      dsimp only at h
      rw [Option.bind_eq_bind', Option.bind_eq_some] at h
      obtain ⟨out, hsend, h⟩ := h
      rw [Option.bind_eq_bind', Option.bind_eq_some] at h
      obtain ⟨p_idx, hpi, h⟩ := h
      rw [Option.bind_eq_bind', Option.bind_eq_some] at h
      obtain ⟨p_rank, hpr, h⟩ := h
      dsimp only [Option.pure_def] at h
      cases h
      cases hsw : swapFn ne other_epr with
      | none =>
        simp only [hsw, Option.map_none']
        exact psLookup_psPop _ _
      | some me =>
        simp only [hsw, Option.map_some']
        split
        · rw [psLookup_psInsert_ne _ _ _ _ hnm]
          exact psLookup_psPop _ _
        · exact psLookup_psPop _ _

/--
Claim C9: whenever handle_signaling processes a SWAP_UPDATE for which the node is
the named destination and the sender's rank equals the node's own rank,
then after the handler returns, the parallel_swappings map contains no
record keyed by the message's EPR name: every branch that finds a record
pops it, and the only record the handler may add is keyed by the name of
the received new EPR (assumed distinct from the message's EPR name).
-/
theorem parallel_swap_records_consumed (swapFn : EPR → EPR → Option EPR)
    (st : PFState) (tc : ℚ) (m : SwapUpdateMsg) (packetDest : String)
    (fe : FIBEntry) (si oi : ℕ) (sr : ℤ)
    (result : PFState × List PFOutput)
    (hguard : ¬(st.timingMode = TimingMode.sync ∧
      st.syncPhase ≠ SignalType.internalPhase))
    (hfib : st.fib m.path_id = some fe)
    (hsi : pyIndex fe.path_vector m.swapping_node = some si)
    (hsr : fe.swap_sequence.get? si = some sr)
    (hoi : pyIndex fe.path_vector st.ownName = some oi)
    (hor : fe.swap_sequence.get? oi = some sr)
    (hdest : m.destination = st.ownName)
    (hname : ∀ ne, m.new_epr = some ne → ne.name ≠ m.epr)
    (hrun : handle_signaling swapFn st tc m packetDest = some result) :
    psLookup result.1.parallelSwappings m.epr = none := by
  rw [handle_signaling_dest_cases swapFn st tc m packetDest fe si oi sr sr
    hguard hfib hsi hsr hoi hor hdest] at hrun
  rw [if_neg (lt_irrefl sr), if_pos rfl] at hrun
  cases hq : get_memory_qubit st.memories m.epr 0 with
  | some p =>
    rcases p with ⟨mi, qubit⟩
    simp only [hq] at hrun
    rw [handle_su_dest_equal_slot_ps st tc m mi qubit result hrun]
    exact psLookup_psPop _ _
  | none =>
    simp only [hq] at hrun
    cases hl : psLookup st.parallelSwappings m.epr with
    | some t =>
      rcases t with ⟨shared_epr, other_epr, my_new_epr⟩
      simp only [hl] at hrun
      exact handle_su_parallel_lookup swapFn st tc m fe.path_vector
        fe.swap_sequence sr shared_epr other_epr my_new_epr result hname hrun
    | none =>
      simp only [hl] at hrun
      cases hrun
      exact hl

/-- Witness for C9 at a concrete input: R1 receives an equal-rank
SWAP_UPDATE from R2 for an EPR it neither holds nor has a record of, and
the theorem applies with every hypothesis discharged. -/
theorem parallel_swap_records_consumed_witness :
    psLookup (Prod.fst ((pfStateR, []) : PFState × List PFOutput)).parallelSwappings
      msgR.epr = none :=
  parallel_swap_records_consumed swapNone pfStateR 0 msgR "R1" entryR 2 1 1
    (pfStateR, [])
    (by decide) (by rfl) (by rfl) (by rfl) (by rfl) (by rfl) (by rfl)
    (fun ne h => Option.noConfusion h) (by rfl)

end Mqns
